import Mathlib

/-!
# Verification of the Glitch object analyzer (`src/analyze_objects.py`)

Shallow embedding of the object-graph loader and query engine of
`analyze_objects.py`.  XML documents are modelled as rose trees of elements
(tag, attribute list, optional text, children), the store as an ordered
association list mirroring a Python `dict` (insertion order, assignment
replaces in place).  Each Python method of `GlitchObjectAnalyzer` becomes a
Lean function of the same name.
-/

namespace Glitch

mutual
/-- One XML element, as `xml.etree.ElementTree` presents it: a tag name,
an attribute dictionary (modelled as an ordered association list, first
binding wins), the element text (`None` when absent) and the child
elements in document order.  The children are a mutually defined forest
so that tree traversals are plain structural recursions. -/
inductive XmlElem where
  | mk (tag : String) (attrs : List (String × String)) (text : Option String)
      (children : XmlForest)
/-- A list of sibling XML elements in document order. -/
inductive XmlForest where
  | nil
  | cons (head : XmlElem) (tail : XmlForest)
end

/-- The element's tag name. -/
def XmlElem.tag : XmlElem → String
  | .mk t _ _ _ => t

/-- The element's attribute list. -/
def XmlElem.attrs : XmlElem → List (String × String)
  | .mk _ a _ _ => a

/-- The element's text (`None` when absent). -/
def XmlElem.text : XmlElem → Option String
  | .mk _ _ x _ => x

/-- The element's direct children in document order. -/
def XmlElem.children : XmlElem → XmlForest
  | .mk _ _ _ c => c

/-- The forest's elements as a list (the order Python iteration visits
them in). -/
def XmlForest.toList : XmlForest → List XmlElem
  | .nil => []
  | .cons c rest => c :: XmlForest.toList rest

/-- Builds a forest from a list of elements (used to write concrete
documents). -/
def XmlForest.ofList : List XmlElem → XmlForest
  | [] => .nil
  | c :: rest => .cons c (XmlForest.ofList rest)

/-- `e.get a` embeds `Element.get(a)`: the attribute value, or `None`. -/
def XmlElem.get (e : XmlElem) (a : String) : Option String :=
  (e.attrs.find? (fun p => p.1 == a)).map Prod.snd

deriving instance DecidableEq for XmlElem

/-- Python `s.startswith(p)` (string operations are modelled on the
character list of the string). -/
def pyStarts (s p : String) : Bool := p.data.isPrefixOf s.data

/-- Python `s.endswith(p)`. -/
def pyEnds (s p : String) : Bool := p.data.isSuffixOf s.data

/-- Python `s[:-n]` for `0 < n ≤ len(s)`: drop the last `n` characters. -/
def pyDropRight (s : String) (n : Nat) : String :=
  ⟨s.data.take (s.data.length - n)⟩

/-- Value of a string of decimal digits. -/
def digitsToNat (l : List Char) : Nat :=
  l.foldl (fun acc c => acc * 10 + (c.toNat - 48)) 0

/-- Embeds Python `int(s)` on an attribute/text string: optional
surrounding whitespace, an optional sign, then decimal digits.
(The digit-group underscores Python also accepts are not modelled;
no behaviour verified here feeds such strings to `int`.) -/
def pyInt (s : String) : Option Int :=
  let t := s.data.dropWhile Char.isWhitespace
  let t := (t.reverse.dropWhile Char.isWhitespace).reverse
  let sd : Bool × List Char :=
    match t with
    | '-' :: r => (true, r)
    | '+' :: r => (false, r)
    | r => (false, r)
  if sd.2.isEmpty then none
  else if sd.2.all Char.isDigit then
    some (if sd.1 then -(digitsToNat sd.2 : Int) else (digitsToNat sd.2 : Int))
  else none

/-- One document of the input directory, as seen after `ET.parse`:
either it is well-formed markup with a root element, or parsing it
raises (malformed markup / missing root). -/
inductive Doc where
  | malformed
  | root (e : XmlElem)

/-- The typed record `parse_object` builds for one entity
(the Python dict with keys `tsid`, `label`, `class`, `timestamp`,
`container`, `xml`). -/
structure Entity where
  tsid : Option String
  label : String
  classTag : String
  timestamp : Int
  container : Option String
  xml : XmlElem
deriving DecidableEq

/-- Embeds `GlitchObjectAnalyzer.parse_object`.  `Except.error ()` is the
exception escaping the method (malformed document, or `int(root.get('ts', 0))`
raising on a non-integer `ts` attribute).  Note the record's `tsid` field is
`root.get('tsid')`, read from the document itself. -/
def parse_object : Doc → Except Unit Entity
  | .malformed => .error ()
  | .root r =>
    match r.get "ts" with
    | none =>
      .ok { tsid := r.get "tsid", label := (r.get "label").getD "Unknown",
            classTag := (r.get "class_tsid").getD "unknown", timestamp := 0,
            container := r.get "container", xml := r }
    | some s =>
      match pyInt s with
      | none => .error ()
      | some n =>
        .ok { tsid := r.get "tsid", label := (r.get "label").getD "Unknown",
              classTag := (r.get "class_tsid").getD "unknown", timestamp := n,
              container := r.get "container", xml := r }

/-- The entity store: a Python `dict` keyed by string id, modelled as an
association list in insertion order. -/
abbrev Store := List (String × Entity)

/-- `d[k] = v` on a Python dict: replace in place when the key exists
(keeping its position), otherwise append. -/
def dictInsert (st : Store) (k : String) (v : Entity) : Store :=
  if st.any (fun p => p.1 == k) then
    st.map (fun p => if p.1 == k then (k, v) else p)
  else st ++ [(k, v)]

/-- `k in d` / `d[k]` on the store: the entity bound to `k`, if any. -/
def lookup (st : Store) (k : String) : Option Entity :=
  (st.find? (fun p => p.1 == k)).map Prod.snd

/-- One iteration of the `load_objects` loop on `(store, collected errors)`:
skip non-`.xml` names; otherwise parse, and either bind the entity under
the filename minus its last four characters (the `.xml` suffix) or record
the per-file error and continue. -/
def loadStep (acc : Store × List String) (fd : String × Doc) : Store × List String :=
  if pyEnds fd.1 ".xml" then
    match parse_object fd.2 with
    | .ok e => (dictInsert acc.1 (pyDropRight fd.1 4) e, acc.2)
    | .error _ => (acc.1, acc.2 ++ [fd.1])
  else acc

/-- Embeds `GlitchObjectAnalyzer.load_objects`: fold `loadStep` over the
directory listing (filenames paired with their parse outcome), starting
from an empty store and no errors.  The second component collects the
names of the files whose load failed (the Python code prints one error
line per such file). -/
def load_objects (files : List (String × Doc)) : Store × List String :=
  files.foldl loadStep ([], [])

/-- The closed category set of `get_object_counts` (its Python dict keys
are the six strings "Bags", "Data Containers", "Players", "Groups",
"Trees/Plants", "Items"). -/
inductive Category where
  | Bags
  | DataContainers
  | Players
  | Groups
  | TreesPlants
  | Items
deriving DecidableEq

/-- The `if/elif` classification chain inside
`GlitchObjectAnalyzer.get_object_counts`, applied to one entity's
`class` field, first match winning. -/
def classify (class_type : String) : Category :=
  if pyStarts class_type "bag_" then .Bags
  else if class_type == "dc" then .DataContainers
  else if class_type == "human" then .Players
  else if class_type == "group" then .Groups
  else if pyStarts class_type "trant_" then .TreesPlants
  else .Items

/-- One iteration of the `get_object_counts` loop: increment the tally of
the entity's category (`counts[...] += 1` on the `defaultdict(int)`,
modelled as a total function `Category → Nat` with absent keys at 0). -/
def tally (counts : Category → Nat) (p : String × Entity) : Category → Nat :=
  let cat := classify p.2.classTag
  fun c => if c = cat then counts c + 1 else counts c

/-- Embeds `GlitchObjectAnalyzer.get_object_counts`: fold `tally` over the
store's values. -/
def get_object_counts (st : Store) : Category → Nat :=
  st.foldl tally (fun _ => 0)

/-- The sum of the six tallies of a category-count table. -/
def totalCount (f : Category → Nat) : Nat :=
  f .Bags + f .DataContainers + f .Players + f .Groups + f .TreesPlants + f .Items

/-- Embeds `GlitchObjectAnalyzer.find_containers`: walk the store's values
in order and keep the entities whose `container` field equals the argument.
The argument has the type of a `container` field, `Option String`: in the
Python source the value passed can be `None` (`find_containers(player['tsid'])`
where the `tsid` attribute may be absent). -/
def find_containers (st : Store) (container_tsid : Option String) : List Entity :=
  (st.map Prod.snd).filter (fun obj => obj.container == container_tsid)

mutual
/-- Document-order (preorder) search of `ElementTree`'s
`find('.//TAG[@id=ID]')` within one subtree: the subtree's root itself,
if it matches, else the first match among its descendants. -/
def findInElem (tagName idv : String) (e : XmlElem) : Option XmlElem :=
  match e with
  | .mk t a x ch =>
    if (XmlElem.mk t a x ch).tag == tagName
        && (XmlElem.mk t a x ch).get "id" == some idv then
      some (XmlElem.mk t a x ch)
    else findInForest tagName idv ch
/-- The same search over sibling subtrees, in document order. -/
def findInForest (tagName idv : String) (f : XmlForest) : Option XmlElem :=
  match f with
  | .nil => none
  | .cons c rest =>
    match findInElem tagName idv c with
    | some r => some r
    | none => findInForest tagName idv rest
end

/-- `e.find('.//TAG[@id=ID]')`: first matching proper descendant of `e`
in document order (`.//` never matches `e` itself). -/
def findDesc (tagName idv : String) (e : XmlElem) : Option XmlElem :=
  findInForest tagName idv e.children

mutual
/-- Number of `objref` elements in one subtree, its root included. -/
def countObjrefsElem (e : XmlElem) : Nat :=
  match e with
  | .mk t _ _ ch =>
    (if t == "objref" then 1 else 0) + countObjrefsForest ch
/-- Number of `objref` elements in a forest of subtrees. -/
def countObjrefsForest (f : XmlForest) : Nat :=
  match f with
  | .nil => 0
  | .cons c rest => countObjrefsElem c + countObjrefsForest rest
end

/-- `len(e.findall('.//objref'))`: number of `objref` proper descendants. -/
def countObjrefs (e : XmlElem) : Nat :=
  countObjrefsForest e.children

/-- Python `str` applied to an `Optional[str]` inside an f-string:
`None` renders as the text "None". -/
def pyStr : Option String → String
  | none => "None"
  | some s => s

/-- The record `analyze_player` returns on success.  `last_update` keeps
the raw millisecond timestamp; its calendar rendering
(`datetime.fromtimestamp(ts / 1000)`) is display formatting outside the
verified core. -/
structure PlayerResult where
  name : String
  tsid : String
  energy : String
  mood : String
  tank : Option String
  references : Nat
  last_update : Int
deriving DecidableEq

/-- Embeds `GlitchObjectAnalyzer.analyze_player`.  `none` is the
"Player ... not found" string return; otherwise the metabolics block is
located by `find('.//object[@id="metabolics"])`, each stat stays at its
"Unknown" initialisation whenever its node is missing, and references are
counted over the whole subtree. -/
def analyze_player (st : Store) (player_tsid : String) : Option PlayerResult :=
  match lookup st player_tsid with
  | none => none
  | some player =>
    let xml := player.xml
    let stats :=
      match findDesc "object" "metabolics" xml with
      | none => ("Unknown", "Unknown", some "Unknown")
      | some metabolics =>
        let energy :=
          match findDesc "prop" "energy" metabolics with
          | none => "Unknown"
          | some p => pyStr p.text ++ "/" ++ pyStr (p.get "top")
        let mood :=
          match findDesc "prop" "mood" metabolics with
          | none => "Unknown"
          | some p => pyStr p.text ++ "/" ++ pyStr (p.get "top")
        let tank :=
          match findDesc "int" "tank" metabolics with
          | none => some "Unknown"
          | some t => t.text
        (energy, mood, tank)
    some { name := player.label, tsid := player_tsid,
           energy := stats.1, mood := stats.2.1, tank := stats.2.2,
           references := countObjrefs xml, last_update := player.timestamp }

/-- `int(child.text)` as the timeline loops use it, with a 0 default that
only matters when the conversion would raise (that case is tracked
separately by `collectInts` returning `none`). -/
def intVal (c : XmlElem) : Int :=
  (c.text.bind pyInt).getD 0

/-- The body of the `for skill in skills_elem` / `for ach in ach_elem`
loop: keep the direct children tagged `int`, pairing each child's `id`
attribute with `int(child.text)`.  Returns `none` when some kept child's
text fails integer conversion (the Python loop raises there). -/
def collectInts : List XmlElem → Option (List (Option String × Int))
  | [] => some []
  | c :: rest =>
    if c.tag == "int" then
      match c.text.bind pyInt with
      | none => none
      | some n => (collectInts rest).map (fun l => (c.get "id", n) :: l)
    else collectInts rest

/-- Order used by `skills.sort(key=lambda x: x['timestamp'])`: compare
the timestamp components. -/
def leTs (a b : Option String × Int) : Prop := a.2 ≤ b.2

instance : DecidableRel leTs := fun a b => inferInstanceAs (Decidable (a.2 ≤ b.2))

instance : IsTotal (Option String × Int) leTs := ⟨fun a b => Int.le_total a.2 b.2⟩

instance : IsTrans (Option String × Int) leTs := ⟨fun _ _ _ hab hbc => le_trans hab hbc⟩

/-- Result type shared by `analyze_skills` and `analyze_achievements`:
the two "not found" string returns, the exception raised by a bad
`int(child.text)`, or the sorted list of (item id, timestamp) pairs. -/
inductive TimelineResult where
  | objNotFound
  | noCollection
  | badInt
  | ok (items : List (Option String × Int))
deriving DecidableEq

/-- Common body of `analyze_skills` and `analyze_achievements`: look the
entity up, locate `find('.//object[@id=collectionId])` in its tree,
collect the direct `int` children as (id, timestamp) pairs and sort them
ascending by timestamp.  Python's `list.sort` is stable; `insertionSort`
with `leTs` is the same stable ascending sort. -/
def extract_timeline (st : Store) (tsid : String) (collectionId : String) :
    TimelineResult :=
  match lookup st tsid with
  | none => .objNotFound
  | some obj =>
    match findDesc "object" collectionId obj.xml with
    | none => .noCollection
    | some elem =>
      match collectInts elem.children.toList with
      | none => .badInt
      | some pairs => .ok (pairs.insertionSort leTs)

/-- Embeds `GlitchObjectAnalyzer.analyze_skills` (collection id "skills"). -/
def analyze_skills (st : Store) (skills_tsid : String) : TimelineResult :=
  extract_timeline st skills_tsid "skills"

/-- Embeds `GlitchObjectAnalyzer.analyze_achievements`
(collection id "achievements"; its body is the skills body verbatim,
with the other collection id and field labels). -/
def analyze_achievements (st : Store) (achievements_tsid : String) : TimelineResult :=
  extract_timeline st achievements_tsid "achievements"

/-- Spec-side description of last-write-wins (for comparison with
`load_objects`): the entity parsed from the last `.xml` file whose name
stem is `id` and whose parse succeeds, scanning the listing from the end. -/
def lastSuccessfulParse (files : List (String × Doc)) (id : String) : Option Entity :=
  (files.reverse.find? (fun fd =>
      pyEnds fd.1 ".xml" && pyDropRight fd.1 4 == id
        && (parse_object fd.2).toOption.isSome)).bind
    (fun fd => (parse_object fd.2).toOption)

/-! ### Concrete documents and stores used by the per-claim witnesses -/

def orphanRootC3 : XmlElem := .mk "game_object" [("tsid", "ORPH")] none .nil

def storeC3 : Store := (load_objects [("ORPH.xml", Doc.root orphanRootC3)]).1

def rootC1 : XmlElem := .mk "game_object" [("tsid", "X")] none .nil

def entC1 : Entity :=
  { tsid := some "X", label := "Unknown", classTag := "unknown",
    timestamp := 0, container := none, xml := rootC1 }

def rootC9 : XmlElem := .mk "game_object" [("tsid", "T"), ("ts", "abc")] none .nil

def docsC2 : List (String × Doc) :=
  [("A.xml", Doc.root (.mk "game_object" [("tsid", "A")] none .nil)),
   ("bad.xml", Doc.malformed),
   ("B.xml", Doc.root (.mk "game_object" [("tsid", "B")] none .nil))]

def childC6 (idv txt : String) : XmlElem := .mk "int" [("id", idv)] (some txt) .nil

def skillsElemC6 : XmlElem :=
  .mk "object" [("id", "skills")] none
    (.ofList [childC6 "A" "300", childC6 "B" "100", childC6 "C" "200"])

def skillsRootC6 : XmlElem :=
  .mk "game_object" [("tsid", "SK1")] none (.ofList [skillsElemC6])

def storeC6 : Store := (load_objects [("SK1.xml", Doc.root skillsRootC6)]).1

def entC6 : Entity :=
  { tsid := some "SK1", label := "Unknown", classTag := "unknown",
    timestamp := 0, container := none, xml := skillsRootC6 }

def intChildC10 : XmlElem := .mk "int" [] (some "42") .nil

def skElemC10 : XmlElem := .mk "object" [("id", "skills")] none (.ofList [intChildC10])

def rootC10 : XmlElem := .mk "game_object" [("tsid", "NID")] none (.ofList [skElemC10])

def storeC10 : Store := (load_objects [("NID.xml", Doc.root rootC10)]).1

def entC10 : Entity :=
  { tsid := some "NID", label := "Unknown", classTag := "unknown",
    timestamp := 0, container := none, xml := rootC10 }

def bareRootC7 : XmlElem := .mk "game_object" [("tsid", "P1")] none .nil

def storeC7 : Store := (load_objects [("P1.xml", Doc.root bareRootC7)]).1

def entC7 : Entity :=
  { tsid := some "P1", label := "Unknown", classTag := "unknown",
    timestamp := 0, container := none, xml := bareRootC7 }

/-! ## Helper lemmas -/

theorem totalCount_tally (g : Category → Nat) (p : String × Entity) :
    totalCount (tally g p) = totalCount g + 1 := by
  unfold tally totalCount
  cases classify p.2.classTag <;> simp <;> omega

theorem totalCount_foldl (l : List (String × Entity)) (g : Category → Nat) :
    totalCount (l.foldl tally g) = totalCount g + l.length := by
  induction l generalizing g with
  | nil => simp
  | cons p l ih => rw [List.foldl_cons, ih, totalCount_tally]; simp; omega

/-! ## C4 -/

/-- C4: `classify` is total and deterministic by construction (a Lean
function into the closed six-constructor type `Category`), and its rules
apply in priority order with first match winning: every class tag starting
with the bag-family prefix classifies as `Bags`, whatever other rule it
might also match, and a tag matching no rule falls through to `Items`. -/
theorem C4_classify_priority :
    (∀ t : String, pyStarts t "bag_" = true → classify t = Category.Bags)
    ∧ (∀ t : String, pyStarts t "bag_" = false → (t == "dc") = false →
        (t == "human") = false → (t == "group") = false →
        pyStarts t "trant_" = false → classify t = Category.Items) := by
  constructor
  · intro t h
    simp [classify, h]
  · intro t h1 h2 h3 h4 h5
    simp [classify, h1, h2, h3, h4, h5]

/-- C4 witness: the bag rule fires on a concrete tag, and the default
falls through on a tag matching no rule. -/
theorem C4_classify_priority_witness :
    classify "bag_dc" = Category.Bags ∧ classify "quest_rock" = Category.Items :=
  ⟨C4_classify_priority.1 "bag_dc" (by decide),
   C4_classify_priority.2 "quest_rock" (by decide) (by decide) (by decide)
     (by decide) (by decide)⟩

/-! ## C5 -/

/-- C5: the per-category tallies of `get_object_counts` sum exactly to the
number of entities in the store — each entity is counted in exactly one
category. -/
theorem C5_counts_sum_to_store_size (st : Store) :
    totalCount (get_object_counts st) = st.length := by
  unfold get_object_counts
  rw [totalCount_foldl]
  simp [totalCount]

/-! ## C3 -/

/-- C3, amended: `find_containers st c` returns exactly the entities of the
store whose `container` field equals the argument `c`, for every argument
`c : Option String`; an entity with an absent `container` is never returned
when the argument is an actual identifier string `some s`; and an argument
matching no entity yields the empty list, never an error.  (As stated the
claim is false: the argument can be `None` in the source, and
`find_containers st none` returns precisely the container-less entities —
see the counterexample.) -/
theorem C3_children_exact :
    (∀ (st : Store) (c : Option String) (e : Entity),
        e ∈ find_containers st c ↔ e ∈ st.map Prod.snd ∧ e.container = c)
    ∧ (∀ (st : Store) (s : String) (e : Entity),
        e ∈ find_containers st (some s) → e.container ≠ none)
    ∧ (∀ (st : Store) (c : Option String),
        (∀ e ∈ st.map Prod.snd, e.container ≠ c) → find_containers st c = []) := by
  refine ⟨?_, ?_, ?_⟩
  · intro st c e
    simp [find_containers, List.mem_filter]
  · intro st s e he
    simp [find_containers, List.mem_filter] at he
    simp [he.2]
  · intro st c h
    simp only [find_containers, List.filter_eq_nil_iff]
    intro e he
    simpa using h e he

/-- C3 counterexample: the loaded store holds one entity whose `container`
is absent, and `find_containers` with argument `none` does return it —
so "an entity whose containerId is absent is never returned by any
childrenOf call, for any argument" fails on the code. -/
theorem C3_counterexample :
    (find_containers storeC3 none).map Entity.container = [none] := by decide

/-- C3 witness: a concrete query for an identifier no entity is contained
in returns the empty list. -/
theorem C3_children_exact_witness :
    find_containers storeC3 (some "ZZZ") = [] :=
  C3_children_exact.2.2 storeC3 (some "ZZZ") (by decide)

theorem map_fst_repl (st : Store) (k : String) (v : Entity) :
    (st.map (fun p => if p.1 == k then (k, v) else p)).map Prod.fst
      = st.map Prod.fst := by
  rw [List.map_map]
  apply List.map_congr_left
  intro p _
  simp only [Function.comp_apply]
  by_cases hp : (p.1 == k) = true
  · rw [if_pos hp]
    exact (beq_iff_eq.mp hp).symm
  · rw [if_neg hp]

theorem keys_dictInsert_sub (st : Store) (k k' : String) (v : Entity)
    (h : k' ∈ (dictInsert st k v).map Prod.fst) :
    k' ∈ st.map Prod.fst ∨ k' = k := by
  unfold dictInsert at h
  by_cases hmem : st.any (fun p => p.1 == k) = true
  · rw [if_pos hmem, map_fst_repl] at h
    exact Or.inl h
  · rw [if_neg hmem] at h
    simp at h
    rcases h with h | h
    · exact Or.inl (by simpa using h)
    · exact Or.inr h

theorem keys_load_foldl (files : List (String × Doc)) (st : Store)
    (errs : List String) :
    ∀ k ∈ ((files.foldl loadStep (st, errs)).1.map Prod.fst),
      k ∈ st.map Prod.fst
        ∨ ∃ fd ∈ files, pyEnds fd.1 ".xml" = true ∧ k = pyDropRight fd.1 4 := by
  induction files generalizing st errs with
  | nil => intro k hk; exact Or.inl hk
  | cons fd files ih =>
    intro k hk
    rw [List.foldl_cons] at hk
    rcases ih (loadStep (st, errs) fd).1 (loadStep (st, errs) fd).2 k (by simpa using hk)
      with h | ⟨fd', hfd', hx, hk'⟩
    · unfold loadStep at h
      by_cases hxml : pyEnds fd.1 ".xml" = true
      · rw [if_pos hxml] at h
        cases hp : parse_object fd.2 with
        | ok e =>
          rw [hp] at h
          rcases keys_dictInsert_sub st (pyDropRight fd.1 4) k e h with h' | h'
          · exact Or.inl h'
          · exact Or.inr ⟨fd, List.mem_cons_self fd files, hxml, h'⟩
        | error u => rw [hp] at h; exact Or.inl h
      · rw [if_neg hxml] at h
        exact Or.inl h
    · exact Or.inr ⟨fd', List.mem_cons_of_mem fd hfd', hx, hk'⟩

/-! ## C1 -/

/-- C1, amended: for every valid document, the `tsid` field of the entity
`parse_object` returns equals the `tsid` attribute of the document's root
node (read from the document itself, possibly absent); it is the store
key — not the entity's id field — that is derived from the source file's
name with its `.xml` extension stripped.  (As stated the claim is false:
see the counterexample, a valid document whose root `tsid` attribute
differs from its filename stem.) -/
theorem C1_id_field_from_document :
    (∀ (r : XmlElem) (e : Entity),
        parse_object (Doc.root r) = Except.ok e → e.tsid = r.get "tsid")
    ∧ (∀ (files : List (String × Doc)) (k : String),
        k ∈ ((load_objects files).1.map Prod.fst) →
        ∃ fd ∈ files, pyEnds fd.1 ".xml" = true ∧ k = pyDropRight fd.1 4) := by
  constructor
  · intro r e h
    cases hts : r.get "ts" with
    | none =>
      simp [parse_object, hts] at h
      rw [← h]
    | some s =>
      cases hpi : pyInt s with
      | none => simp [parse_object, hts, hpi] at h
      | some n =>
        simp [parse_object, hts, hpi] at h
        rw [← h]
  · intro files k hk
    rcases keys_load_foldl files [] [] k hk with h | h
    · simp at h
    · exact h

/-- C1 counterexample: the document in file "Y.xml" whose root carries
tsid="X" parses without error, yet the id field of the parsed entity is
"X" and not the filename stem "Y"; only the store key is "Y". -/
theorem C1_counterexample :
    (parse_object (Doc.root rootC1)).isOk = true
    ∧ ((parse_object (Doc.root rootC1)).toOption.map Entity.tsid) ≠ some (some "Y")
    ∧ (load_objects [("Y.xml", Doc.root rootC1)]).1.map Prod.fst = ["Y"] :=
  ⟨by decide, by decide, by decide⟩

/-- C1 witness: the amended statement evaluated on the concrete document. -/
theorem C1_id_field_from_document_witness :
    entC1.tsid = rootC1.get "tsid" :=
  C1_id_field_from_document.1 rootC1 entC1 (by rfl)

/-! ## C9 -/

/-- C9: a document whose `ts` attribute is present but not a valid integer
literal fails to parse as a whole — `parse_object` raises (the
`int(root.get('ts', 0))` call), so the entity is excluded from the store
and the file is counted as one per-document load error; the timestamp is
not defaulted to 0. -/
theorem C9_invalid_ts_fails_parse (r : XmlElem) (s name : String)
    (hts : r.get "ts" = some s) (hbad : pyInt s = none)
    (hxml : pyEnds name ".xml" = true) :
    parse_object (Doc.root r) = Except.error ()
    ∧ load_objects [(name, Doc.root r)] = ([], [name]) := by
  have hp : parse_object (Doc.root r) = Except.error () := by
    simp [parse_object, hts, hbad]
  exact ⟨hp, by simp [load_objects, loadStep, hxml, hp]⟩

/-- C9 witness: a concrete document with ts="abc" is rejected whole. -/
theorem C9_invalid_ts_fails_parse_witness :
    parse_object (Doc.root rootC9) = Except.error ()
    ∧ load_objects [("T.xml", Doc.root rootC9)] = ([], ["T.xml"]) :=
  C9_invalid_ts_fails_parse rootC9 "abc" "T.xml" (by decide) (by decide) (by decide)

/-! ## C2 -/

@[simp]
theorem Except_isOk_ok {ε α : Type} (a : α) :
    (Except.ok a : Except ε α).isOk = true := rfl

@[simp]
theorem Except_isOk_error {ε α : Type} (u : ε) :
    (Except.error u : Except ε α).isOk = false := rfl

theorem length_filter_not_add (l : List (String × Doc))
    (f : (String × Doc) → Bool) :
    (l.filter f).length + (l.filter (fun x => !(f x))).length = l.length := by
  induction l with
  | nil => rfl
  | cons a l ih =>
    by_cases h : f a = true <;> simp [List.filter_cons, h] <;> omega

theorem dictInsert_length (st : Store) (k : String) (v : Entity) :
    (dictInsert st k v).length ≤ st.length + 1 := by
  unfold dictInsert
  by_cases hmem : st.any (fun p => p.1 == k) = true
  · rw [if_pos hmem, List.length_map]
    omega
  · rw [if_neg hmem]
    simp

theorem load_foldl_spec (files : List (String × Doc)) (st : Store)
    (errs : List String) (hx : ∀ fd ∈ files, pyEnds fd.1 ".xml" = true) :
    (files.foldl loadStep (st, errs)).2
        = errs ++ (files.filter (fun fd => !(parse_object fd.2).isOk)).map Prod.fst
    ∧ (files.foldl loadStep (st, errs)).1.length
        ≤ st.length + (files.filter (fun fd => (parse_object fd.2).isOk)).length := by
  induction files generalizing st errs with
  | nil => simp
  | cons fd files ih =>
    have hxml : pyEnds fd.1 ".xml" = true := hx fd (List.mem_cons_self fd files)
    have hxr : ∀ fd' ∈ files, pyEnds fd'.1 ".xml" = true :=
      fun fd' h => hx fd' (List.mem_cons_of_mem fd h)
    rw [List.foldl_cons]
    cases hp : parse_object fd.2 with
    | ok e =>
      have hstep : loadStep (st, errs) fd
          = (dictInsert st (pyDropRight fd.1 4) e, errs) := by
        simp [loadStep, hxml, hp]
      rw [hstep]
      obtain ⟨h1, h2⟩ := ih (dictInsert st (pyDropRight fd.1 4) e) errs hxr
      refine ⟨by rw [h1]; simp [List.filter_cons, hp], ?_⟩
      have hd := dictInsert_length st (pyDropRight fd.1 4) e
      simp only [List.filter_cons, hp, Except_isOk_ok, if_pos, List.length_cons]
      simp
      omega
    | error u =>
      have hstep : loadStep (st, errs) fd = (st, errs ++ [fd.1]) := by
        simp [loadStep, hxml, hp]
      rw [hstep]
      obtain ⟨h1, h2⟩ := ih st (errs ++ [fd.1]) hxr
      refine ⟨by rw [h1]; simp [List.filter_cons, hp], ?_⟩
      simpa [List.filter_cons, hp] using h2

/-- C2: over a directory listing of `n` `.xml` documents of which `k` fail
to parse, `load_objects` records exactly the names of the `k` failing
documents as its collected errors (in listing order) and returns a store of
at most `n - k` entities; the fold processes every document — a parse
failure never aborts the remaining loads. -/
theorem C2_load_collects_errors (files : List (String × Doc))
    (hx : ∀ fd ∈ files, pyEnds fd.1 ".xml" = true) :
    (load_objects files).2
        = (files.filter (fun fd => !(parse_object fd.2).isOk)).map Prod.fst
    ∧ (load_objects files).1.length
        ≤ files.length - (files.filter (fun fd => !(parse_object fd.2).isOk)).length := by
  obtain ⟨h1, h2⟩ := load_foldl_spec files [] [] hx
  refine ⟨by simpa using h1, ?_⟩
  have hn := length_filter_not_add files (fun fd => (parse_object fd.2).isOk)
  simp only [List.length_nil, Nat.zero_add] at h2
  unfold load_objects
  omega

/-- C2 witness: a concrete three-document listing with one malformed
document loads the other two and collects exactly that one error. -/
theorem C2_load_collects_errors_witness :
    (load_objects docsC2).2
        = (docsC2.filter (fun fd => !(parse_object fd.2).isOk)).map Prod.fst
    ∧ (load_objects docsC2).1.length
        ≤ docsC2.length - (docsC2.filter (fun fd => !(parse_object fd.2).isOk)).length :=
  C2_load_collects_errors docsC2 (by decide)

/-! ## C8 -/

theorem lookup_cons (p : String × Entity) (st : Store) (k : String) :
    lookup (p :: st) k = if p.1 == k then some p.2 else lookup st k := by
  by_cases h : (p.1 == k) = true <;> simp [lookup, List.find?, h]

theorem lookup_map_repl_ne (st : Store) (k : String) (v : Entity) (k' : String)
    (h : k' ≠ k) :
    lookup (st.map (fun p => if p.1 == k then (k, v) else p)) k' = lookup st k' := by
  induction st with
  | nil => rfl
  | cons q st ih =>
    rw [List.map_cons, lookup_cons, lookup_cons]
    by_cases hq : (q.1 == k) = true
    · have hq' : q.1 = k := beq_iff_eq.mp hq
      have hkk' : (k == k') = false := beq_eq_false_iff_ne.mpr (fun e => h e.symm)
      rw [if_pos hq]
      simp only [hkk', hq', Bool.false_eq_true, if_false]
      exact ih
    · rw [if_neg hq]
      by_cases hqk' : (q.1 == k') = true
      · simp [hqk']
      · simp only [hqk', Bool.false_eq_true, if_false]
        exact ih

theorem lookup_map_repl_self (st : Store) (k : String) (v : Entity)
    (hmem : st.any (fun p => p.1 == k) = true) :
    lookup (st.map (fun p => if p.1 == k then (k, v) else p)) k = some v := by
  induction st with
  | nil => simp at hmem
  | cons q st ih =>
    rw [List.map_cons, lookup_cons]
    by_cases hq : (q.1 == k) = true
    · rw [if_pos hq]
      simp
    · have hq' : (q.1 == k) = false := by simpa using hq
      rw [if_neg hq, hq']
      simp only [Bool.false_eq_true, if_false]
      simp only [List.any_cons, hq', Bool.false_or] at hmem
      exact ih hmem

theorem lookup_dictInsert (st : Store) (k : String) (v : Entity) (k' : String) :
    lookup (dictInsert st k v) k' = if k' = k then some v else lookup st k' := by
  unfold dictInsert
  by_cases hmem : st.any (fun p => p.1 == k) = true
  · rw [if_pos hmem]
    by_cases hk : k' = k
    · subst hk
      rw [if_pos rfl]
      exact lookup_map_repl_self st k' v hmem
    · rw [if_neg hk]
      exact lookup_map_repl_ne st k v k' hk
  · rw [if_neg hmem]
    unfold lookup
    rw [List.find?_append]
    by_cases hk : k' = k
    · subst hk
      have hnone : st.find? (fun p => p.1 == k') = none := by
        rw [List.find?_eq_none]
        intro p hp hcon
        exact hmem (List.any_eq_true.mpr ⟨p, hp, hcon⟩)
      rw [hnone]
      simp [List.find?]
    · rw [if_neg hk]
      have h2 : List.find? (fun p => p.1 == k') [(k, v)] = none := by
        have hkk' : (k == k') = false := beq_eq_false_iff_ne.mpr (fun e => hk e.symm)
        simp [List.find?, hkk']
      rw [h2]
      simp

theorem nodup_keys_dictInsert (st : Store) (k : String) (v : Entity)
    (h : (st.map Prod.fst).Nodup) : ((dictInsert st k v).map Prod.fst).Nodup := by
  unfold dictInsert
  by_cases hmem : st.any (fun p => p.1 == k) = true
  · rw [if_pos hmem, map_fst_repl]
    exact h
  · rw [if_neg hmem, List.map_append]
    rw [List.nodup_append]
    refine ⟨h, by simp, ?_⟩
    intro a ha hb
    simp at hb
    rcases List.mem_map.mp ha with ⟨p, hp, hpk⟩
    exact hmem (List.any_eq_true.mpr ⟨p, hp, beq_iff_eq.mpr (hpk.trans hb)⟩)

theorem nodup_keys_load (files : List (String × Doc)) (st : Store)
    (errs : List String) (h : (st.map Prod.fst).Nodup) :
    (((files.foldl loadStep (st, errs)).1).map Prod.fst).Nodup := by
  induction files generalizing st errs with
  | nil => exact h
  | cons fd files ih =>
    rw [List.foldl_cons]
    by_cases hxml : pyEnds fd.1 ".xml" = true
    · cases hp : parse_object fd.2 with
      | ok e =>
        have hstep : loadStep (st, errs) fd
            = (dictInsert st (pyDropRight fd.1 4) e, errs) := by
          simp [loadStep, hxml, hp]
        rw [hstep]
        exact ih _ _ (nodup_keys_dictInsert st _ e h)
      | error u =>
        have hstep : loadStep (st, errs) fd = (st, errs ++ [fd.1]) := by
          simp [loadStep, hxml, hp]
        rw [hstep]
        exact ih _ _ h
    · have hstep : loadStep (st, errs) fd = (st, errs) := by
        simp [loadStep, hxml]
      rw [hstep]
      exact ih _ _ h

theorem lookup_load_foldl (files : List (String × Doc)) (st : Store)
    (errs : List String) (id : String) :
    lookup (files.foldl loadStep (st, errs)).1 id
      = (lastSuccessfulParse files id).or (lookup st id) := by
  induction files using List.reverseRecOn generalizing st errs with
  | nil => simp [lastSuccessfulParse]
  | append_singleton files fd ih =>
    rw [List.foldl_append, List.foldl_cons, List.foldl_nil]
    unfold lastSuccessfulParse
    rw [List.reverse_append]
    simp only [List.reverse_cons, List.reverse_nil, List.nil_append,
      List.singleton_append, List.find?]
    by_cases hpred : (pyEnds fd.1 ".xml" && pyDropRight fd.1 4 == id
        && (parse_object fd.2).toOption.isSome) = true
    · rw [hpred]
      simp only [Bool.and_eq_true, beq_iff_eq] at hpred
      obtain ⟨⟨hxml, hstem⟩, hsome⟩ := hpred
      obtain ⟨e, he⟩ := Option.isSome_iff_exists.mp hsome
      have hok : parse_object fd.2 = Except.ok e := by
        cases hq : parse_object fd.2 with
        | ok a => rw [hq] at he; simpa [Except.toOption] using he
        | error u => rw [hq] at he; simp [Except.toOption] at he
      have hstep : loadStep (files.foldl loadStep (st, errs)) fd
          = (dictInsert (files.foldl loadStep (st, errs)).1 (pyDropRight fd.1 4) e,
             (files.foldl loadStep (st, errs)).2) := by
        simp [loadStep, hxml, hok]
      rw [hstep]
      simp only [lookup_dictInsert, hstem, if_pos rfl]
      simp [he]
    · rw [Bool.not_eq_true] at hpred
      rw [hpred]
      have hlhs : lookup (loadStep (files.foldl loadStep (st, errs)) fd).1 id
          = lookup (files.foldl loadStep (st, errs)).1 id := by
        by_cases hxml : pyEnds fd.1 ".xml" = true
        · cases hq : parse_object fd.2 with
          | ok e =>
            have hstem : pyDropRight fd.1 4 ≠ id := by
              intro hcon
              rw [Bool.and_eq_false_iff] at hpred
              rcases hpred with h | h
              · rw [Bool.and_eq_false_iff] at h
                rcases h with h | h
                · rw [hxml] at h; simp at h
                · rw [beq_eq_false_iff_ne] at h; exact h hcon
              · rw [hq] at h; simp [Except.toOption] at h
            have hstep : loadStep (files.foldl loadStep (st, errs)) fd
                = (dictInsert (files.foldl loadStep (st, errs)).1
                    (pyDropRight fd.1 4) e, (files.foldl loadStep (st, errs)).2) := by
              simp [loadStep, hxml, hq]
            rw [hstep]
            rw [lookup_dictInsert]
            rw [if_neg (fun e' => hstem e'.symm)]
          | error u =>
            have hstep : loadStep (files.foldl loadStep (st, errs)) fd
                = ((files.foldl loadStep (st, errs)).1,
                   (files.foldl loadStep (st, errs)).2 ++ [fd.1]) := by
              simp [loadStep, hxml, hq]
            rw [hstep]
        · have hstep : loadStep (files.foldl loadStep (st, errs)) fd
              = files.foldl loadStep (st, errs) := by
            simp [loadStep, hxml]
          rw [hstep]
      rw [hlhs, ih]
      rfl

/-- C8: after a load the store never maps one id to two entities — the key
list is duplicate-free, so `lookup` yields at most one entity — and the
entity found under an id is exactly the last successfully parsed document
of the listing whose filename stem is that id (last-write-wins); `lookup`
returns `none` when no such document exists. -/
theorem C8_unique_ids_last_write (files : List (String × Doc)) (id : String) :
    (((load_objects files).1).map Prod.fst).Nodup
    ∧ lookup (load_objects files).1 id = lastSuccessfulParse files id := by
  constructor
  · exact nodup_keys_load files [] [] (by simp)
  · have h := lookup_load_foldl files [] [] id
    simpa [lookup] using h

/-! ## C6 -/

theorem collectInts_eq (cs : List XmlElem) (l : List (Option String × Int))
    (h : collectInts cs = some l) :
    l = (cs.filter (fun c => c.tag == "int")).map
      (fun c => (c.get "id", intVal c)) := by
  induction cs generalizing l with
  | nil =>
    simp [collectInts] at h
    simp [← h]
  | cons c rest ih =>
    by_cases htag : (c.tag == "int") = true
    · simp only [collectInts, htag, if_pos] at h
      cases hv : c.text.bind pyInt with
      | none => rw [hv] at h; simp at h
      | some n =>
        rw [hv] at h
        rcases Option.map_eq_some'.mp h with ⟨l', hl', hcons⟩
        subst hcons
        have hn : intVal c = n := by simp [intVal, hv]
        rw [ih l' hl']
        simp [List.filter_cons, htag, hn]
    · have htag' : (c.tag == "int") = false := by simpa using htag
      simp only [collectInts, htag', Bool.false_eq_true, if_false] at h
      rw [List.filter_cons, htag']
      simp only [Bool.false_eq_true, if_false]
      exact ih l h

theorem filterTs_orderedInsert (t : Int) (a : Option String × Int)
    (l : List (Option String × Int)) :
    (l.orderedInsert leTs a).filter (fun x => x.2 == t)
      = if a.2 == t then a :: l.filter (fun x => x.2 == t)
        else l.filter (fun x => x.2 == t) := by
  induction l with
  | nil =>
    by_cases ha : (a.2 == t) = true <;>
      simp [List.orderedInsert, List.filter_cons, ha]
  | cons b l ih =>
    by_cases hab : leTs a b
    · simp only [List.orderedInsert, if_pos hab]
      by_cases ha : (a.2 == t) = true <;> simp [List.filter_cons, ha]
    · simp only [List.orderedInsert, if_neg hab]
      rw [List.filter_cons, ih]
      have hba : b.2 < a.2 := by
        have : ¬ (a.2 ≤ b.2) := hab
        omega
      by_cases ha : (a.2 == t) = true
      · have hat : a.2 = t := beq_iff_eq.mp ha
        have hbt : (b.2 == t) = false := by
          apply beq_eq_false_iff_ne.mpr
          omega
        simp [ha, hbt, List.filter_cons]
      · have ha' : (a.2 == t) = false := by simpa using ha
        simp [ha', List.filter_cons]

theorem filterTs_insertionSort (t : Int) (l : List (Option String × Int)) :
    (l.insertionSort leTs).filter (fun x => x.2 == t)
      = l.filter (fun x => x.2 == t) := by
  induction l with
  | nil => rfl
  | cons a l ih =>
    rw [List.insertionSort, filterTs_orderedInsert, ih, List.filter_cons]

/-- C6: for every entity in the store and every collection path (the
"skills" instance is `analyze_skills`, the "achievements" instance
`analyze_achievements`), when the named collection node is found and every
direct `int` child's text converts, the timeline returned is exactly the
(id attribute, integer value) pairs of the direct `int`-tagged children,
stably sorted ascending by timestamp: the output is sorted, is a
permutation of the collected pairs, and for each timestamp the items
carrying it keep their source order. -/
theorem C6_timeline_sorted_stable (st : Store) (tsid : String)
    (collectionId : String) (obj : Entity)
    (elem : XmlElem) (pairs : List (Option String × Int))
    (h1 : lookup st tsid = some obj)
    (h2 : findDesc "object" collectionId obj.xml = some elem)
    (h3 : collectInts elem.children.toList = some pairs) :
    extract_timeline st tsid collectionId
        = TimelineResult.ok (pairs.insertionSort leTs)
    ∧ pairs = (elem.children.toList.filter (fun c => c.tag == "int")).map
        (fun c => (c.get "id", intVal c))
    ∧ (pairs.insertionSort leTs).Sorted leTs
    ∧ (pairs.insertionSort leTs).Perm pairs
    ∧ (∀ t : Int, (pairs.insertionSort leTs).filter (fun x => x.2 == t)
        = pairs.filter (fun x => x.2 == t)) := by
  refine ⟨?_, collectInts_eq _ _ h3, List.sorted_insertionSort leTs pairs,
    List.perm_insertionSort leTs pairs, fun t => filterTs_insertionSort t pairs⟩
  simp [extract_timeline, h1, h2, h3]


/-- C6 witness: children with ids A, B, C and timestamps 300, 100, 200
come out as [(B,100), (C,200), (A,300)]. -/
theorem C6_timeline_sorted_stable_witness :
    analyze_skills storeC6 "SK1"
      = TimelineResult.ok [(some "B", 100), (some "C", 200), (some "A", 300)] := by
  have h := (C6_timeline_sorted_stable storeC6 "SK1" "skills" entC6 skillsElemC6
    [(some "A", 300), (some "B", 100), (some "C", 200)]
    (by rfl) (by rfl) (by rfl)).1
  rw [analyze_skills, h]
  decide

/-! ## C10 -/

/-- C10: a direct `int` child of the collection node that has no `id`
attribute is still extracted — paired with the absent identifier `none`
and its timestamp — and appears in the returned timeline; it is neither
dropped nor an error. -/
theorem C10_missing_id_included (st : Store) (tsid : String)
    (collectionId : String) (obj : Entity)
    (elem : XmlElem) (pairs : List (Option String × Int)) (c : XmlElem)
    (h1 : lookup st tsid = some obj)
    (h2 : findDesc "object" collectionId obj.xml = some elem)
    (h3 : collectInts elem.children.toList = some pairs)
    (hc : c ∈ elem.children.toList) (htag : (c.tag == "int") = true)
    (hid : c.get "id" = none) :
    extract_timeline st tsid collectionId
        = TimelineResult.ok (pairs.insertionSort leTs)
    ∧ (none, intVal c) ∈ pairs.insertionSort leTs := by
  refine ⟨by simp [extract_timeline, h1, h2, h3], ?_⟩
  rw [List.mem_insertionSort, collectInts_eq _ _ h3]
  exact List.mem_map.mpr ⟨c, List.mem_filter.mpr ⟨hc, htag⟩, by rw [hid]⟩

/-- C10 witness: one `int` child without an id attribute shows up as
`(none, 42)` in the timeline. -/
theorem C10_missing_id_included_witness :
    analyze_skills storeC10 "NID"
      = TimelineResult.ok [((none : Option String), (42 : Int))] := by
  have h := C10_missing_id_included storeC10 "NID" "skills" entC10 skElemC10
    [(none, 42)] intChildC10 (by rfl) (by rfl) (by rfl) (by decide) (by decide)
    (by decide)
  rw [analyze_skills, h.1]
  decide

/-! ## C7 -/

/-- C7: when an intermediate node of a requested path is absent, each
navigator operation yields its not-found outcome instead of an error: a
missing metabolics node leaves every stat at "Unknown" while
`analyze_player` still returns a full record; a present metabolics node
with a missing energy prop (the findScalar case) or a missing tank int
node (the findInt case) leaves that stat at "Unknown"; and a missing
skills/achievements collection makes the timeline queries return their
no-data outcome. -/
theorem C7_missing_path_not_error (st : Store) (t : String) (obj : Entity)
    (h : lookup st t = some obj) :
    (findDesc "object" "metabolics" obj.xml = none →
      analyze_player st t = some {
        name := obj.label, tsid := t,
        energy := "Unknown", mood := "Unknown", tank := some "Unknown",
        references := countObjrefs obj.xml, last_update := obj.timestamp })
    ∧ (∀ m, findDesc "object" "metabolics" obj.xml = some m →
        findDesc "prop" "energy" m = none →
        (analyze_player st t).map PlayerResult.energy = some "Unknown")
    ∧ (∀ m, findDesc "object" "metabolics" obj.xml = some m →
        findDesc "int" "tank" m = none →
        (analyze_player st t).map PlayerResult.tank = some (some "Unknown"))
    ∧ (findDesc "object" "skills" obj.xml = none →
        analyze_skills st t = TimelineResult.noCollection)
    ∧ (findDesc "object" "achievements" obj.xml = none →
        analyze_achievements st t = TimelineResult.noCollection) := by
  refine ⟨?_, ?_, ?_, ?_, ?_⟩
  · intro hm
    simp [analyze_player, h, hm]
  · intro m hm he
    simp [analyze_player, h, hm, he]
  · intro m hm ht
    simp [analyze_player, h, hm, ht]
  · intro hs
    simp [analyze_skills, extract_timeline, h, hs]
  · intro ha
    simp [analyze_achievements, extract_timeline, h, ha]

/-- C7 witness: an entity with no metabolics and no skills node yields the
all-Unknown player record and the no-data timeline outcome. -/
theorem C7_missing_path_not_error_witness :
    analyze_player storeC7 "P1" = some {
      name := "Unknown", tsid := "P1",
      energy := "Unknown", mood := "Unknown", tank := some "Unknown",
      references := 0, last_update := 0 }
    ∧ analyze_skills storeC7 "P1" = TimelineResult.noCollection := by
  have h := C7_missing_path_not_error storeC7 "P1" entC7 (by rfl)
  refine ⟨?_, h.2.2.2.1 (by rfl)⟩
  have h1 := h.1 (by rfl)
  rw [h1]
  decide

end Glitch
